import Mathlib

/-!
Verification of the stacks-transactions-js binary codec and signing front-end.

Byte sequences are modelled as `List Nat` (one entry per byte). Fallible
serialization (a thrown `Error` in the source) is `Except String (List Nat)`;
deserialization from a cursor is `List Nat → Option (α × List Nat)`, returning
the decoded value together with the unread suffix of the input.
-/

/-- Big-endian encoding of `n` into exactly `w` bytes (the source's
`BigNum.toArrayLike(Buffer, 'be', w)` and fixed-width hex appends). -/
def natToBeBytes : Nat → Nat → List Nat
  | 0, _ => []
  | w + 1, n => natToBeBytes w (n / 256) ++ [n % 256]

/-- Big-endian decoding of a byte list into a `Nat` (the source's
`new BigNum(buffer.toString('hex'), 16)`). -/
def beBytesToNat (bs : List Nat) : Nat :=
  bs.foldl (fun acc b => acc * 256 + b) 0

/-- `BufferReader.read n`: take `n` bytes off the front of the cursor, failing
when fewer than `n` bytes remain. -/
def readBytes (n : Nat) (bs : List Nat) : Option (List Nat × List Nat) :=
  if n ≤ bs.length then some (bs.take n, bs.drop n) else none

/-- The source's `if (x === undefined) throw new Error(msg)` guard. -/
def require {α : Type} (o : Option α) (msg : String) : Except String α :=
  match o with
  | none => Except.error msg
  | some a => Except.ok a

@[simp] theorem require_some {α : Type} (a : α) (msg : String) :
    require (some a) msg = Except.ok a := rfl

@[simp] theorem require_none {α : Type} (msg : String) :
    require (none : Option α) msg = Except.error msg := rfl

@[simp] theorem exceptBind_ok {α β : Type} (a : α) (f : α → Except String β) :
    Except.bind (Except.ok a) f = f a := rfl

@[simp] theorem exceptBind_error {α β : Type} (e : String) (f : α → Except String β) :
    Except.bind (Except.error e : Except String α) f = Except.error e := rfl

@[simp] theorem natToBeBytes_length (w n : Nat) : (natToBeBytes w n).length = w := by
  induction w generalizing n with
  | zero => simp [natToBeBytes]
  | succ w ih => simp [natToBeBytes, ih]

theorem beBytesToNat_append_singleton (bs : List Nat) (b : Nat) :
    beBytesToNat (bs ++ [b]) = beBytesToNat bs * 256 + b := by
  simp [beBytesToNat, List.foldl_append]

theorem beBytesToNat_natToBeBytes_mod (w n : Nat) :
    beBytesToNat (natToBeBytes w n) = n % 256 ^ w := by
  induction w generalizing n with
  | zero => simp [natToBeBytes, beBytesToNat, Nat.mod_one]
  | succ w ih =>
    rw [natToBeBytes, beBytesToNat_append_singleton, ih]
    rw [pow_succ, mul_comm (256 ^ w) 256, Nat.mod_mul]
    ring

theorem beBytesToNat_natToBeBytes {w n : Nat} (h : n < 256 ^ w) :
    beBytesToNat (natToBeBytes w n) = n := by
  rw [beBytesToNat_natToBeBytes_mod, Nat.mod_eq_of_lt h]

theorem readBytes_exact {n : Nat} {xs : List Nat} (h : xs.length = n) (rest : List Nat) :
    readBytes n (xs ++ rest) = some (xs, rest) := by
  subst h
  simp [readBytes, List.take_left, List.drop_left]

/-! ### Constants

Modelled from the spec: `constants.ts` is not under src/. Enum values are the
single-byte tags the spec's wire format prescribes; concrete values follow the
repository's golden serialization vectors (mainnet transactions start with byte
0x00, testnet with 0x80, anchor-mode "any" is 0x03, post-condition-mode Deny is
0x02, standard auth is 0x04). -/

def TransactionVersion.mainnet : Nat := 0x00

def TransactionVersion.testnet : Nat := 0x80

/-- Modelled from the spec: the default 4-byte chain id (`DEFAULT_CHAIN_ID` in
the missing `constants.ts`); the golden vectors show four zero bytes. -/
def DEFAULT_CHAIN_ID : List Nat := [0, 0, 0, 0]

def AnchorMode.onChainOnly : Nat := 0x01

def AnchorMode.offChainOnly : Nat := 0x02

def AnchorMode.any : Nat := 0x03

def PostConditionMode.allow : Nat := 0x01

def PostConditionMode.deny : Nat := 0x02

def AuthType.standard : Nat := 0x04

def AuthType.sponsored : Nat := 0x05

def PostConditionType.stx : Nat := 0x00

def PostConditionType.fungible : Nat := 0x01

def PostConditionType.nonFungible : Nat := 0x02

def PayloadType.tokenTransfer : Nat := 0x00

def PayloadType.smartContract : Nat := 0x01

def PayloadType.contractCall : Nat := 0x02

def PayloadType.poisonMicroblock : Nat := 0x03

def PayloadType.coinbase : Nat := 0x04

def PrincipalType.standard : Nat := 0x02

def PrincipalType.contract : Nat := 0x03

/-- Modelled from the spec: `COINBASE_BUFFER_LENGTH_BYTES` — the Coinbase
payload carries a 32-byte fixed buffer. -/
def COINBASE_BUFFER_LENGTH_BYTES : Nat := 32

/-! ### Length-prefixed string

Modelled from the spec: `types.ts` is not under src/. Wire layout
`len(1) bytes(len)` with `len ≤ 128`; exceeding 128 bytes is a fatal
serialize-time error. Content is kept as its UTF-8 byte list. -/

structure LengthPrefixedString where
  content : List Nat
deriving DecidableEq, Repr

def LengthPrefixedString.serialize (s : LengthPrefixedString) : Except String (List Nat) :=
  if s.content.length > 128 then Except.error "String length exceeds maximum bytes 128"
  else Except.ok (s.content.length :: s.content)

def LengthPrefixedString.deserialize (bs : List Nat) :
    Option (LengthPrefixedString × List Nat) :=
  match bs with
  | [] => none
  | len :: rest =>
    (readBytes len rest).bind fun p => some (⟨p.1⟩, p.2)

/-! ### Address

Modelled from the spec: a versioned 20-byte hash; serialized as the version
byte followed by the 20 hash bytes. The c32check string form is delegated to
the external address codec and is not part of the wire format. -/

structure Address where
  version : Nat
  hash160 : List Nat
deriving DecidableEq, Repr

def Address.serialize (a : Address) : List Nat :=
  a.version :: a.hash160

def Address.deserialize (bs : List Nat) : Option (Address × List Nat) :=
  match bs with
  | [] => none
  | v :: rest =>
    (readBytes 20 rest).bind fun p => some (⟨v, p.1⟩, p.2)

/-! ### Principal

Modelled from the spec: tagged union Standard(address) or
Contract(address, contract-name); the tag byte precedes the fields and the
contract name is a length-prefixed string. -/

inductive Principal where
  | standard (address : Address)
  | contract (address : Address) (contractName : LengthPrefixedString)
deriving DecidableEq, Repr

def Principal.serialize : Principal → Except String (List Nat)
  | .standard a => Except.ok (PrincipalType.standard :: a.serialize)
  | .contract a n =>
    Except.bind n.serialize fun nb =>
      Except.ok (PrincipalType.contract :: (a.serialize ++ nb))

def Principal.deserialize (bs : List Nat) : Option (Principal × List Nat) :=
  match bs with
  | [] => none
  | t :: rest =>
    if t = PrincipalType.standard then
      (Address.deserialize rest).bind fun p => some (.standard p.1, p.2)
    else if t = PrincipalType.contract then
      (Address.deserialize rest).bind fun p =>
        (LengthPrefixedString.deserialize p.2).bind fun q =>
          some (.contract p.1 q.1, q.2)
    else none

/-! ### AssetInfo

Modelled from the spec: (address, contract-name, asset-name) triple, serialized
in that order with length-prefixed strings for the names. -/

structure AssetInfo where
  address : Address
  contractName : LengthPrefixedString
  assetName : LengthPrefixedString
deriving DecidableEq, Repr

def AssetInfo.serialize (ai : AssetInfo) : Except String (List Nat) :=
  Except.bind ai.contractName.serialize fun cnb =>
    Except.bind ai.assetName.serialize fun anb =>
      Except.ok (ai.address.serialize ++ cnb ++ anb)

def AssetInfo.deserialize (bs : List Nat) : Option (AssetInfo × List Nat) :=
  (Address.deserialize bs).bind fun p =>
    (LengthPrefixedString.deserialize p.2).bind fun q =>
      (LengthPrefixedString.deserialize q.2).bind fun r =>
        some (⟨p.1, q.1, r.1⟩, r.2)

/-! ### Round-trip predicate and well-formedness -/

/-- `x` serializes successfully and deserializing the produced bytes (with any
suffix appended) returns `x` and consumes exactly those bytes. -/
def SerDe {α : Type} (ser : α → Except String (List Nat))
    (deser : List Nat → Option (α × List Nat)) (x : α) : Prop :=
  ∃ bs, ser x = Except.ok bs ∧ ∀ rest, deser (bs ++ rest) = some (x, rest)

def WFLps (s : LengthPrefixedString) : Prop := s.content.length ≤ 128

def WFAddress (a : Address) : Prop := a.hash160.length = 20

def WFPrincipal : Principal → Prop
  | .standard a => WFAddress a
  | .contract a n => WFAddress a ∧ WFLps n

def WFAssetInfo (ai : AssetInfo) : Prop :=
  WFAddress ai.address ∧ WFLps ai.contractName ∧ WFLps ai.assetName

theorem LengthPrefixedString.serialize_ok {s : LengthPrefixedString} (h : WFLps s) :
    s.serialize = Except.ok (s.content.length :: s.content) := by
  rw [LengthPrefixedString.serialize, if_neg (by exact Nat.not_lt.mpr h)]

theorem lps_serde {s : LengthPrefixedString} (h : WFLps s) :
    SerDe LengthPrefixedString.serialize LengthPrefixedString.deserialize s := by
  refine ⟨s.content.length :: s.content, LengthPrefixedString.serialize_ok h, fun rest => ?_⟩
  simp [LengthPrefixedString.deserialize, readBytes_exact rfl]

theorem address_serde {a : Address} (h : WFAddress a) (rest : List Nat) :
    Address.deserialize (a.serialize ++ rest) = some (a, rest) := by
  simp [Address.serialize, Address.deserialize, readBytes_exact h]

theorem principal_serde {p : Principal} (h : WFPrincipal p) :
    SerDe Principal.serialize Principal.deserialize p := by
  cases p with
  | standard a =>
    refine ⟨PrincipalType.standard :: a.serialize, rfl, fun rest => ?_⟩
    simp [Principal.deserialize, PrincipalType.standard, address_serde h rest]
  | contract a n =>
    obtain ⟨ha, hn⟩ := h
    obtain ⟨nb, hser, hdes⟩ := lps_serde hn
    refine ⟨PrincipalType.contract :: (a.serialize ++ nb), ?_, fun rest => ?_⟩
    · simp [Principal.serialize, hser]
    · simp only [Principal.deserialize, PrincipalType.contract, PrincipalType.standard,
        List.cons_append, List.append_assoc]
      norm_num
      simp [address_serde ha, hdes rest]

theorem assetInfo_serde {ai : AssetInfo} (h : WFAssetInfo ai) :
    SerDe AssetInfo.serialize AssetInfo.deserialize ai := by
  obtain ⟨ha, hcn, han⟩ := h
  obtain ⟨cnb, hser1, hdes1⟩ := lps_serde hcn
  obtain ⟨anb, hser2, hdes2⟩ := lps_serde han
  refine ⟨ai.address.serialize ++ cnb ++ anb, ?_, fun rest => ?_⟩
  · simp [AssetInfo.serialize, hser1, hser2]
  · simp only [AssetInfo.deserialize, List.append_assoc]
    simp [address_serde ha, hdes1, hdes2]

/-! ### Clarity values

Modelled from the spec: the contract-language value codec (`clarity.ts`) is not
under src/; the spec treats it as an external collaborator serializing each
contract-call argument. The variants exercised by the repository (true, false,
buffer) are modelled with their tag bytes; a buffer carries a 4-byte big-endian
length prefix. -/

inductive ClarityValue where
  | trueCV
  | falseCV
  | bufferCV (buffer : List Nat)
deriving DecidableEq, Repr

def ClarityValue.serialize : ClarityValue → List Nat
  | .trueCV => [0x03]
  | .falseCV => [0x04]
  | .bufferCV b => 0x02 :: (natToBeBytes 4 b.length ++ b)

def ClarityValue.deserialize (bs : List Nat) : Option (ClarityValue × List Nat) :=
  match bs with
  | [] => none
  | t :: rest =>
    if t = 0x03 then some (.trueCV, rest)
    else if t = 0x04 then some (.falseCV, rest)
    else if t = 0x02 then
      (readBytes 4 rest).bind fun p =>
        (readBytes (beBytesToNat p.1) p.2).bind fun q =>
          some (.bufferCV q.1, q.2)
    else none

def WFClarityValue : ClarityValue → Prop
  | .bufferCV b => b.length < 2 ^ 32
  | _ => True

theorem clarityValue_serde {v : ClarityValue} (h : WFClarityValue v) (rest : List Nat) :
    ClarityValue.deserialize (v.serialize ++ rest) = some (v, rest) := by
  cases v with
  | trueCV => simp [ClarityValue.serialize, ClarityValue.deserialize]
  | falseCV => simp [ClarityValue.serialize, ClarityValue.deserialize]
  | bufferCV b =>
    have hlt : b.length < 256 ^ 4 := h
    simp only [ClarityValue.serialize, ClarityValue.deserialize, List.cons_append,
      List.append_assoc]
    norm_num
    rw [readBytes_exact (natToBeBytes_length 4 b.length)]
    simp [beBytesToNat_natToBeBytes hlt, readBytes_exact rfl]

/-! ### Homogeneous element sequences (`LengthPrefixedList` body) -/

/-- Serialize each element in order and concatenate (the loop inside
`LengthPrefixedList.serialize` / the contract-call argument envelope). -/
def serializeEach {α : Type} (ser : α → Except String (List Nat)) :
    List α → Except String (List Nat)
  | [] => Except.ok []
  | x :: xs =>
    Except.bind (ser x) fun b =>
      Except.bind (serializeEach ser xs) fun bsx =>
        Except.ok (b ++ bsx)

/-- Deserialize exactly `n` consecutive elements (the count-driven loop inside
`LengthPrefixedList.deserialize`). -/
def deserializeCount {α : Type} (deser : List Nat → Option (α × List Nat)) :
    Nat → List Nat → Option (List α × List Nat)
  | 0, bs => some ([], bs)
  | n + 1, bs =>
    (deser bs).bind fun p =>
      (deserializeCount deser n p.2).bind fun q =>
        some (p.1 :: q.1, q.2)

theorem serializeEach_serde {α : Type} {ser : α → Except String (List Nat)}
    {deser : List Nat → Option (α × List Nat)} {xs : List α}
    (h : ∀ x ∈ xs, SerDe ser deser x) :
    ∃ bs, serializeEach ser xs = Except.ok bs ∧
      ∀ rest, deserializeCount deser xs.length (bs ++ rest) = some (xs, rest) := by
  induction xs with
  | nil => exact ⟨[], rfl, fun rest => rfl⟩
  | cons x xs ih =>
    obtain ⟨b, hb, hdb⟩ := h x (List.mem_cons_self x xs)
    obtain ⟨bsx, hbsx, hdbsx⟩ := ih (fun y hy => h y (List.mem_cons_of_mem x hy))
    refine ⟨b ++ bsx, ?_, fun rest => ?_⟩
    · simp [serializeEach, hb, hbsx]
    · simp only [List.length_cons, deserializeCount, List.append_assoc]
      rw [hdb]
      simp [hdbsx rest]

/-! ### Spending condition and authorization

Modelled from the spec: `authorization.ts` is not under src/. A single-sig
spending condition serializes as
`hashMode(1) signerHash(20) nonce(8) feeRate(8) keyEncoding(1) signature(65)`;
nonce and fee-rate are nullable fields checked at use sites; the "empty"
signature sentinel is 65 zero bytes. An authorization is
`authType(1) spendingCondition [sponsorCondition]`, the sponsor condition being
present exactly for sponsored authorizations. -/

structure SpendingCondition where
  addressHashMode : Nat
  signerHash : List Nat
  nonce : Option Nat
  feeRate : Option Nat
  keyEncoding : Nat
  signature : List Nat
deriving DecidableEq, Repr

/-- Modelled from the spec: `MessageSignature.empty()` — the all-zero 65-byte
sentinel, distinguishable from a real signature. -/
def emptyMessageSignature : List Nat := List.replicate 65 0

/-- Modelled from the spec: single-sig address-hash modes are the P2PKH family
(`SerializeP2PKH` = 0x00, `SerializeP2WPKH` = 0x02); 0x01/0x03 are the
multi-sig P2SH family. -/
def SpendingCondition.singleSig (c : SpendingCondition) : Bool :=
  c.addressHashMode = 0x00 ∨ c.addressHashMode = 0x02

def SpendingCondition.serialize (c : SpendingCondition) : Except String (List Nat) :=
  Except.bind (require c.nonce "\"nonce\" is undefined") fun nonce =>
    Except.bind (require c.feeRate "\"feeRate\" is undefined") fun feeRate =>
      Except.ok (c.addressHashMode :: (c.signerHash ++ natToBeBytes 8 nonce ++
        natToBeBytes 8 feeRate ++ c.keyEncoding :: c.signature))

def SpendingCondition.deserialize (bs : List Nat) :
    Option (SpendingCondition × List Nat) :=
  match bs with
  | [] => none
  | hashMode :: rest =>
    (readBytes 20 rest).bind fun p =>
      (readBytes 8 p.2).bind fun q =>
        (readBytes 8 q.2).bind fun r =>
          match r.2 with
          | [] => none
          | keyEncoding :: rest2 =>
            (readBytes 65 rest2).bind fun s =>
              some (⟨hashMode, p.1, some (beBytesToNat q.1), some (beBytesToNat r.1),
                keyEncoding, s.1⟩, s.2)

/-- Modelled from the spec: the "initial sighash" stripping of one condition —
the not-yet-known signature is replaced by the empty sentinel. -/
def SpendingCondition.intoInitial (c : SpendingCondition) : SpendingCondition :=
  { c with signature := emptyMessageSignature }

structure Authorization where
  authType : Option Nat
  spendingCondition : Option SpendingCondition
  sponsorCondition : Option SpendingCondition
deriving DecidableEq, Repr

/-- Modelled from the spec: `StandardAuthorization(spendingCondition)`. -/
def StandardAuthorization (sc : Option SpendingCondition) : Authorization :=
  ⟨some AuthType.standard, sc, none⟩

/-- Modelled from the spec: `SponsoredAuthorization` wraps an origin and a
sponsor condition. -/
def SponsoredAuthorization (sc sponsor : Option SpendingCondition) : Authorization :=
  ⟨some AuthType.sponsored, sc, sponsor⟩

/-- Modelled from the spec: `intoInitialSighashAuth` — the signature-stripped
variant of an authorization used to seed the sighash chain. -/
def Authorization.intoInitialSighashAuth (a : Authorization) : Authorization :=
  { a with
    spendingCondition := a.spendingCondition.map SpendingCondition.intoInitial,
    sponsorCondition := a.sponsorCondition.map SpendingCondition.intoInitial }

def Authorization.serialize (a : Authorization) : Except String (List Nat) :=
  Except.bind (require a.authType "\"authType\" is undefined") fun t =>
    Except.bind (require a.spendingCondition "\"spendingCondition\" is undefined") fun sc =>
      Except.bind sc.serialize fun scb =>
        if t = AuthType.sponsored then
          Except.bind (require a.sponsorCondition "\"sponsorCondition\" is undefined")
            fun sponsor =>
              Except.bind sponsor.serialize fun spb =>
                Except.ok (t :: (scb ++ spb))
        else Except.ok (t :: scb)

def Authorization.deserialize (bs : List Nat) : Option (Authorization × List Nat) :=
  match bs with
  | [] => none
  | t :: rest =>
    if t = AuthType.standard then
      (SpendingCondition.deserialize rest).bind fun p =>
        some (⟨some t, some p.1, none⟩, p.2)
    else if t = AuthType.sponsored then
      (SpendingCondition.deserialize rest).bind fun p =>
        (SpendingCondition.deserialize p.2).bind fun q =>
          some (⟨some t, some p.1, some q.1⟩, q.2)
    else none

def WFSpendingCondition (c : SpendingCondition) : Prop :=
  c.signerHash.length = 20 ∧ c.signature.length = 65 ∧
    (match c.nonce with | some n => n < 2 ^ 64 | none => False) ∧
    (match c.feeRate with | some f => f < 2 ^ 64 | none => False)

def WFAuthorization (a : Authorization) : Prop :=
  (match a.spendingCondition with | some sc => WFSpendingCondition sc | none => False) ∧
    ((a.authType = some AuthType.standard ∧ a.sponsorCondition = none) ∨
     (a.authType = some AuthType.sponsored ∧
       (match a.sponsorCondition with | some sp => WFSpendingCondition sp | none => False)))

theorem spendingCondition_serde {c : SpendingCondition} (h : WFSpendingCondition c) :
    SerDe SpendingCondition.serialize SpendingCondition.deserialize c := by
  obtain ⟨hm, sh, no, fr, ke, sig⟩ := c
  obtain ⟨hsh, hsig, hn, hf⟩ := h
  cases no with
  | none => exact absurd hn (by simp)
  | some n =>
  cases fr with
  | none => exact absurd hf (by simp)
  | some f =>
  simp only at hsh hsig hn hf
  have hn256 : n < 256 ^ 8 := by
    have h2 : (256 : Nat) ^ 8 = 2 ^ 64 := by norm_num
    omega
  have hf256 : f < 256 ^ 8 := by
    have h2 : (256 : Nat) ^ 8 = 2 ^ 64 := by norm_num
    omega
  refine ⟨hm :: (sh ++ natToBeBytes 8 n ++ natToBeBytes 8 f ++ ke :: sig), ?_, fun rest => ?_⟩
  · simp [SpendingCondition.serialize]
  · simp only [SpendingCondition.deserialize, List.cons_append, List.append_assoc]
    rw [readBytes_exact hsh]
    simp only [Option.some_bind]
    rw [readBytes_exact (natToBeBytes_length 8 n)]
    simp only [Option.some_bind]
    rw [readBytes_exact (natToBeBytes_length 8 f)]
    simp only [Option.some_bind, List.cons_append]
    rw [readBytes_exact hsig]
    simp [beBytesToNat_natToBeBytes hn256, beBytesToNat_natToBeBytes hf256]

theorem authorization_serde {a : Authorization} (h : WFAuthorization a) :
    SerDe Authorization.serialize Authorization.deserialize a := by
  obtain ⟨ta, sca, spa⟩ := a
  obtain ⟨hsc, hrest⟩ := h
  cases sca with
  | none => exact absurd hsc (by simp)
  | some sc =>
  simp only at hsc
  obtain ⟨scb, hser, hdes⟩ := spendingCondition_serde hsc
  rcases hrest with ⟨ht, hsponsor⟩ | ⟨ht, hsp⟩
  · simp only at ht hsponsor
    subst ht
    subst hsponsor
    refine ⟨AuthType.standard :: scb, ?_, fun rest => ?_⟩
    · simp [Authorization.serialize, hser, AuthType.standard, AuthType.sponsored]
    · simp only [Authorization.deserialize, AuthType.standard, AuthType.sponsored]
      norm_num
      rw [hdes rest]
      simp
  · simp only at ht hsp
    subst ht
    cases spa with
    | none => exact absurd hsp (by simp)
    | some sp =>
    simp only at hsp
    obtain ⟨spb, hser2, hdes2⟩ := spendingCondition_serde hsp
    refine ⟨AuthType.sponsored :: (scb ++ spb), ?_, fun rest => ?_⟩
    · simp [Authorization.serialize, hser, hser2, AuthType.standard, AuthType.sponsored]
    · simp only [Authorization.deserialize, AuthType.standard, AuthType.sponsored,
        List.append_assoc]
      norm_num
      rw [hdes (spb ++ rest)]
      simp only [Option.some_bind]
      rw [hdes2 rest]
      simp

/-! ### Payload

Modelled from the spec: `payload.ts` is not under src/. Closed tagged union
over TokenTransfer(recipient-principal, amount:u64, memo:34-byte fixed buffer),
SmartContract(contract-name, code-body), ContractCall(contract-principal,
contract-name, function-name, ordered argument list), PoisonMicroblock(two
microblock headers) and Coinbase(32-byte fixed buffer). The tag byte is the
first serialized byte. The code body and each microblock header carry a 4-byte
big-endian length (the header codec itself is external; headers are kept as
opaque byte lists). -/

inductive Payload where
  | tokenTransfer (recipient : Principal) (amount : Nat) (memo : List Nat)
  | smartContract (contractName : LengthPrefixedString) (codeBody : List Nat)
  | contractCall (contractPrincipal : Principal) (contractName : LengthPrefixedString)
      (functionName : LengthPrefixedString) (functionArgs : List ClarityValue)
  | poisonMicroblock (header1 : List Nat) (header2 : List Nat)
  | coinbase (coinbaseBuffer : List Nat)
deriving DecidableEq, Repr

def Payload.payloadType : Payload → Nat
  | .tokenTransfer _ _ _ => PayloadType.tokenTransfer
  | .smartContract _ _ => PayloadType.smartContract
  | .contractCall _ _ _ _ => PayloadType.contractCall
  | .poisonMicroblock _ _ => PayloadType.poisonMicroblock
  | .coinbase _ => PayloadType.coinbase

def Payload.serialize : Payload → Except String (List Nat)
  | .tokenTransfer r amount memo =>
    Except.bind r.serialize fun rb =>
      Except.ok (PayloadType.tokenTransfer :: (rb ++ natToBeBytes 8 amount ++ memo))
  | .smartContract n codeBody =>
    Except.bind n.serialize fun nb =>
      Except.ok (PayloadType.smartContract :: (nb ++ natToBeBytes 4 codeBody.length ++ codeBody))
  | .contractCall p n f args =>
    Except.bind p.serialize fun pb =>
      Except.bind n.serialize fun nb =>
        Except.bind f.serialize fun fb =>
          Except.ok (PayloadType.contractCall :: (pb ++ nb ++ fb ++
            natToBeBytes 4 args.length ++ (args.map ClarityValue.serialize).flatten))
  | .poisonMicroblock h1 h2 =>
    Except.ok (PayloadType.poisonMicroblock :: (natToBeBytes 4 h1.length ++ h1 ++
      natToBeBytes 4 h2.length ++ h2))
  | .coinbase buffer =>
    Except.ok (PayloadType.coinbase :: buffer)

/-- Deserialize exactly `n` clarity arguments. -/
def deserializeClarityArgs : Nat → List Nat → Option (List ClarityValue × List Nat)
  | 0, bs => some ([], bs)
  | n + 1, bs =>
    (ClarityValue.deserialize bs).bind fun p =>
      (deserializeClarityArgs n p.2).bind fun q =>
        some (p.1 :: q.1, q.2)

def Payload.deserialize (bs : List Nat) : Option (Payload × List Nat) :=
  match bs with
  | [] => none
  | t :: rest =>
    if t = PayloadType.tokenTransfer then
      (Principal.deserialize rest).bind fun p =>
        (readBytes 8 p.2).bind fun q =>
          (readBytes 34 q.2).bind fun r =>
            some (.tokenTransfer p.1 (beBytesToNat q.1) r.1, r.2)
    else if t = PayloadType.smartContract then
      (LengthPrefixedString.deserialize rest).bind fun p =>
        (readBytes 4 p.2).bind fun q =>
          (readBytes (beBytesToNat q.1) q.2).bind fun r =>
            some (.smartContract p.1 r.1, r.2)
    else if t = PayloadType.contractCall then
      (Principal.deserialize rest).bind fun p =>
        (LengthPrefixedString.deserialize p.2).bind fun q =>
          (LengthPrefixedString.deserialize q.2).bind fun r =>
            (readBytes 4 r.2).bind fun s =>
              (deserializeClarityArgs (beBytesToNat s.1) s.2).bind fun u =>
                some (.contractCall p.1 q.1 r.1 u.1, u.2)
    else if t = PayloadType.poisonMicroblock then
      (readBytes 4 rest).bind fun p =>
        (readBytes (beBytesToNat p.1) p.2).bind fun q =>
          (readBytes 4 q.2).bind fun r =>
            (readBytes (beBytesToNat r.1) r.2).bind fun s =>
              some (.poisonMicroblock q.1 s.1, s.2)
    else if t = PayloadType.coinbase then
      (readBytes COINBASE_BUFFER_LENGTH_BYTES rest).bind fun p =>
        some (.coinbase p.1, p.2)
    else none

def WFPayload : Payload → Prop
  | .tokenTransfer r amount memo => WFPrincipal r ∧ amount < 2 ^ 64 ∧ memo.length = 34
  | .smartContract n codeBody => WFLps n ∧ codeBody.length < 2 ^ 32
  | .contractCall p n f args =>
    WFPrincipal p ∧ WFLps n ∧ WFLps f ∧ args.length < 2 ^ 32 ∧
      ∀ v ∈ args, WFClarityValue v
  | .poisonMicroblock h1 h2 => h1.length < 2 ^ 32 ∧ h2.length < 2 ^ 32
  | .coinbase buffer => buffer.length = COINBASE_BUFFER_LENGTH_BYTES

theorem pow_32_as_256 : (2 : Nat) ^ 32 = 256 ^ 4 := by norm_num

theorem pow_64_as_256 : (2 : Nat) ^ 64 = 256 ^ 8 := by norm_num

theorem deserializeClarityArgs_flatten {args : List ClarityValue}
    (h : ∀ v ∈ args, WFClarityValue v) (rest : List Nat) :
    deserializeClarityArgs args.length ((args.map ClarityValue.serialize).flatten ++ rest) =
      some (args, rest) := by
  induction args with
  | nil => rfl
  | cons v vs ih =>
    simp only [List.length_cons, List.map_cons, List.flatten_cons, deserializeClarityArgs,
      List.append_assoc]
    rw [clarityValue_serde (h v (List.mem_cons_self v vs))]
    simp only [Option.some_bind]
    rw [ih (fun w hw => h w (List.mem_cons_of_mem v hw))]
    rfl

theorem payload_serde {p : Payload} (h : WFPayload p) :
    SerDe Payload.serialize Payload.deserialize p := by
  cases p with
  | tokenTransfer r amount memo =>
    obtain ⟨hr, hamt, hmemo⟩ := h
    obtain ⟨rb, hser, hdes⟩ := principal_serde hr
    refine ⟨PayloadType.tokenTransfer :: (rb ++ natToBeBytes 8 amount ++ memo), ?_, fun rest => ?_⟩
    · simp [Payload.serialize, hser]
    · have hamt256 : amount < 256 ^ 8 := by rw [← pow_64_as_256]; exact hamt
      simp only [Payload.deserialize, PayloadType.tokenTransfer, List.cons_append,
        List.append_assoc]
      norm_num
      rw [hdes]
      simp only [Option.some_bind]
      rw [readBytes_exact (natToBeBytes_length 8 amount)]
      simp only [Option.some_bind]
      rw [readBytes_exact hmemo]
      simp [beBytesToNat_natToBeBytes hamt256]
  | smartContract n codeBody =>
    obtain ⟨hn, hcb⟩ := h
    obtain ⟨nb, hser, hdes⟩ := lps_serde hn
    refine ⟨PayloadType.smartContract ::
      (nb ++ natToBeBytes 4 codeBody.length ++ codeBody), ?_, fun rest => ?_⟩
    · simp [Payload.serialize, hser]
    · have hcb256 : codeBody.length < 256 ^ 4 := by rw [← pow_32_as_256]; exact hcb
      simp only [Payload.deserialize, PayloadType.smartContract, PayloadType.tokenTransfer,
        List.cons_append, List.append_assoc]
      norm_num
      rw [hdes]
      simp only [Option.some_bind]
      rw [readBytes_exact (natToBeBytes_length 4 codeBody.length)]
      simp only [Option.some_bind]
      rw [beBytesToNat_natToBeBytes hcb256, readBytes_exact rfl]
      simp
  | contractCall p n f args =>
    obtain ⟨hp, hn, hf, hlen, hargs⟩ := h
    obtain ⟨pb, hser1, hdes1⟩ := principal_serde hp
    obtain ⟨nb, hser2, hdes2⟩ := lps_serde hn
    obtain ⟨fb, hser3, hdes3⟩ := lps_serde hf
    refine ⟨PayloadType.contractCall :: (pb ++ nb ++ fb ++ natToBeBytes 4 args.length ++
      (args.map ClarityValue.serialize).flatten), ?_, fun rest => ?_⟩
    · simp [Payload.serialize, hser1, hser2, hser3]
    · have hlen256 : args.length < 256 ^ 4 := by rw [← pow_32_as_256]; exact hlen
      simp only [Payload.deserialize, PayloadType.contractCall, PayloadType.tokenTransfer,
        PayloadType.smartContract, List.cons_append, List.append_assoc]
      norm_num
      rw [hdes1]
      simp only [Option.some_bind]
      rw [hdes2]
      simp only [Option.some_bind]
      rw [hdes3]
      simp only [Option.some_bind]
      rw [readBytes_exact (natToBeBytes_length 4 args.length)]
      simp only [Option.some_bind]
      rw [beBytesToNat_natToBeBytes hlen256, deserializeClarityArgs_flatten hargs]
      rfl
  | poisonMicroblock h1 h2 =>
    obtain ⟨hh1, hh2⟩ := h
    refine ⟨PayloadType.poisonMicroblock :: (natToBeBytes 4 h1.length ++ h1 ++
      natToBeBytes 4 h2.length ++ h2), rfl, fun rest => ?_⟩
    have hh1' : h1.length < 256 ^ 4 := by rw [← pow_32_as_256]; exact hh1
    have hh2' : h2.length < 256 ^ 4 := by rw [← pow_32_as_256]; exact hh2
    simp only [Payload.deserialize, PayloadType.poisonMicroblock, PayloadType.tokenTransfer,
      PayloadType.smartContract, PayloadType.contractCall, List.cons_append, List.append_assoc]
    norm_num
    rw [readBytes_exact (natToBeBytes_length 4 h1.length)]
    simp only [Option.some_bind]
    rw [beBytesToNat_natToBeBytes hh1', readBytes_exact rfl]
    simp only [Option.some_bind]
    rw [readBytes_exact (natToBeBytes_length 4 h2.length)]
    simp only [Option.some_bind]
    rw [beBytesToNat_natToBeBytes hh2', readBytes_exact rfl]
    rfl
  | coinbase buffer =>
    refine ⟨PayloadType.coinbase :: buffer, rfl, fun rest => ?_⟩
    simp only [Payload.deserialize, PayloadType.coinbase, PayloadType.tokenTransfer,
      PayloadType.smartContract, PayloadType.contractCall, PayloadType.poisonMicroblock,
      List.cons_append]
    norm_num
    rw [readBytes_exact h]
    rfl

/-! ### PostCondition (translated from src/src/postcondition.ts)

Fields mirror the nullable fields of the `PostCondition` class; the condition
type and condition code are kept as their tag bytes (the source stores the
hex-string enum values and casts raw read bytes without validation). -/

structure PostCondition where
  postConditionType : Option Nat
  principal : Option Principal
  conditionCode : Option Nat
  assetInfo : Option AssetInfo
  assetName : Option LengthPrefixedString
  amount : Option Nat
deriving DecidableEq, Repr

/-- The `PostCondition` base constructor: every argument is optional and the
raw asset-name string is wrapped into a `LengthPrefixedString` when present. -/
def mkPostCondition (postConditionType : Option Nat) (principal : Option Principal)
    (conditionCode : Option Nat) (amount : Option Nat) (assetInfo : Option AssetInfo)
    (assetNameRaw : Option (List Nat)) : PostCondition :=
  { postConditionType := postConditionType
    principal := principal
    conditionCode := conditionCode
    assetInfo := assetInfo
    assetName := assetNameRaw.map LengthPrefixedString.mk
    amount := amount }

/-- `STXPostCondition`: the subclass constructor fixes the STX discriminant and
passes no asset info or asset name. -/
def STXPostCondition (principal : Option Principal) (conditionCode : Option Nat)
    (amount : Option Nat) : PostCondition :=
  mkPostCondition (some PostConditionType.stx) principal conditionCode amount none none

/-- `FungiblePostCondition`: fixes the Fungible discriminant. -/
def FungiblePostCondition (principal : Option Principal) (conditionCode : Option Nat)
    (amount : Option Nat) (assetInfo : Option AssetInfo) : PostCondition :=
  mkPostCondition (some PostConditionType.fungible) principal conditionCode amount assetInfo none

/-- `NonFungiblePostCondition`: fixes the NonFungible discriminant and passes
`undefined` for the amount. -/
def NonFungiblePostCondition (principal : Option Principal) (conditionCode : Option Nat)
    (assetInfo : Option AssetInfo) (assetNameRaw : Option (List Nat)) : PostCondition :=
  mkPostCondition (some PostConditionType.nonFungible) principal conditionCode none assetInfo
    assetNameRaw

/-- `PostCondition.serialize`: the guards and appends in source order — type
tag, principal, asset info (Fungible/NonFungible only), asset name
(NonFungible only), condition code, 8-byte big-endian amount
(STX/Fungible only). -/
def PostCondition.serialize (pc : PostCondition) : Except String (List Nat) :=
  Except.bind (require pc.postConditionType "\"postConditionType\" is undefined") fun t =>
    Except.bind (require pc.principal "\"principal\" is undefined") fun principal =>
      Except.bind principal.serialize fun principalBytes =>
        Except.bind
          (if t = PostConditionType.fungible ∨ t = PostConditionType.nonFungible then
            Except.bind (require pc.assetInfo "\"assetInfo\" is undefined") fun ai =>
              ai.serialize
          else Except.ok []) fun assetInfoBytes =>
          Except.bind
            (if t = PostConditionType.nonFungible then
              Except.bind (require pc.assetName "\"assetName\" is undefined") fun an =>
                an.serialize
            else Except.ok []) fun assetNameBytes =>
            Except.bind (require pc.conditionCode "\"conditionCode\" is undefined") fun code =>
              Except.bind
                (if t = PostConditionType.stx ∨ t = PostConditionType.fungible then
                  Except.bind (require pc.amount "\"amount\" is undefined") fun amount =>
                    Except.ok (natToBeBytes 8 amount)
                else Except.ok []) fun amountBytes =>
                Except.ok (t :: (principalBytes ++ assetInfoBytes ++ assetNameBytes ++
                  code :: amountBytes))

/-- `PostCondition.deserialize`: reads the type tag without validation, then
the principal, then the branch-dependent fields in the same order as
serialization. -/
def PostCondition.deserialize (bs : List Nat) : Option (PostCondition × List Nat) :=
  match bs with
  | [] => none
  | t :: rest =>
    (Principal.deserialize rest).bind fun p =>
      (if t = PostConditionType.fungible ∨ t = PostConditionType.nonFungible then
        (AssetInfo.deserialize p.2).bind fun q => some (some q.1, q.2)
      else some (none, p.2)).bind fun q =>
        (if t = PostConditionType.nonFungible then
          (LengthPrefixedString.deserialize q.2).bind fun r => some (some r.1, r.2)
        else some (none, q.2)).bind fun r =>
          match r.2 with
          | [] => none
          | code :: rest2 =>
            (if t = PostConditionType.stx ∨ t = PostConditionType.fungible then
              (readBytes 8 rest2).bind fun s => some (some (beBytesToNat s.1), s.2)
            else some (none, rest2)).bind fun s =>
              some ({ postConditionType := some t
                      principal := some p.1
                      conditionCode := some code
                      assetInfo := q.1
                      assetName := r.1
                      amount := s.1 }, s.2)

/-- Well-formedness of a post-condition: the discriminant is one of the three
variants, the fields the variant requires are present and in bounds, and the
fields the variant does not carry are absent (as the variant constructors
guarantee). -/
def WFPostCondition (pc : PostCondition) : Prop :=
  (match pc.principal with | some p => WFPrincipal p | none => False) ∧
  pc.conditionCode ≠ none ∧
  ((pc.postConditionType = some PostConditionType.stx ∧ pc.assetInfo = none ∧
      pc.assetName = none ∧
      (match pc.amount with | some amount => amount < 2 ^ 64 | none => False)) ∨
   (pc.postConditionType = some PostConditionType.fungible ∧
      (match pc.assetInfo with | some ai => WFAssetInfo ai | none => False) ∧
      pc.assetName = none ∧
      (match pc.amount with | some amount => amount < 2 ^ 64 | none => False)) ∨
   (pc.postConditionType = some PostConditionType.nonFungible ∧
      (match pc.assetInfo with | some ai => WFAssetInfo ai | none => False) ∧
      (match pc.assetName with | some an => WFLps an | none => False) ∧
      pc.amount = none))

theorem postCondition_serde {pc : PostCondition} (h : WFPostCondition pc) :
    SerDe PostCondition.serialize PostCondition.deserialize pc := by
  obtain ⟨tO, pO, cO, aiO, anO, amtO⟩ := pc
  obtain ⟨hp, hc, hvar⟩ := h
  cases pO with
  | none => exact absurd hp (by simp)
  | some p =>
  simp only at hp
  cases cO with
  | none => exact absurd rfl hc
  | some code =>
  obtain ⟨pb, hserP, hdesP⟩ := principal_serde hp
  rcases hvar with ⟨ht, hai, han, hamt⟩ | ⟨ht, hai, han, hamt⟩ | ⟨ht, hai, han, hamt⟩
  · -- STX
    simp only at ht hai han hamt
    subst ht; subst hai; subst han
    cases amtO with
    | none => exact absurd hamt (by simp)
    | some amount =>
    simp only at hamt
    have hamt256 : amount < 256 ^ 8 := by rw [← pow_64_as_256]; exact hamt
    refine ⟨PostConditionType.stx :: (pb ++ code :: natToBeBytes 8 amount), ?_, fun rest => ?_⟩
    · norm_num [PostCondition.serialize, hserP, PostConditionType.stx,
        PostConditionType.fungible, PostConditionType.nonFungible]
    · simp only [PostCondition.deserialize, PostConditionType.stx, PostConditionType.fungible,
        PostConditionType.nonFungible, List.cons_append, List.append_assoc]
      norm_num
      rw [hdesP]
      simp only [Option.some_bind, List.cons_append]
      rw [readBytes_exact (natToBeBytes_length 8 amount)]
      simp [beBytesToNat_natToBeBytes hamt256]
  · -- Fungible
    simp only at ht hai han hamt
    subst ht; subst han
    cases aiO with
    | none => exact absurd hai (by simp)
    | some ai =>
    simp only at hai
    cases amtO with
    | none => exact absurd hamt (by simp)
    | some amount =>
    simp only at hamt
    have hamt256 : amount < 256 ^ 8 := by rw [← pow_64_as_256]; exact hamt
    obtain ⟨aib, hserA, hdesA⟩ := assetInfo_serde hai
    refine ⟨PostConditionType.fungible :: (pb ++ aib ++ code :: natToBeBytes 8 amount), ?_,
      fun rest => ?_⟩
    · norm_num [PostCondition.serialize, hserP, hserA, PostConditionType.stx,
        PostConditionType.fungible, PostConditionType.nonFungible]
    · simp only [PostCondition.deserialize, PostConditionType.stx, PostConditionType.fungible,
        PostConditionType.nonFungible, List.cons_append, List.append_assoc]
      norm_num
      rw [hdesP]
      simp only [Option.some_bind]
      rw [hdesA]
      simp only [Option.some_bind, List.cons_append]
      rw [readBytes_exact (natToBeBytes_length 8 amount)]
      simp [beBytesToNat_natToBeBytes hamt256]
  · -- NonFungible
    simp only at ht hai han hamt
    subst ht; subst hamt
    cases aiO with
    | none => exact absurd hai (by simp)
    | some ai =>
    simp only at hai
    cases anO with
    | none => exact absurd han (by simp)
    | some an =>
    simp only at han
    obtain ⟨aib, hserA, hdesA⟩ := assetInfo_serde hai
    obtain ⟨anb, hserN, hdesN⟩ := lps_serde han
    refine ⟨PostConditionType.nonFungible :: (pb ++ aib ++ anb ++ [code]), ?_, fun rest => ?_⟩
    · norm_num [PostCondition.serialize, hserP, hserA, hserN, PostConditionType.stx,
        PostConditionType.fungible, PostConditionType.nonFungible]
    · simp only [PostCondition.deserialize, PostConditionType.stx, PostConditionType.fungible,
        PostConditionType.nonFungible, List.cons_append, List.append_assoc]
      norm_num
      rw [hdesP]
      simp only [Option.some_bind]
      rw [hdesA]
      simp only [Option.some_bind]
      rw [hdesN]
      simp only [Option.some_bind, List.singleton_append]

/-! ### StacksTransaction (translated from src/src/transaction.ts) -/

structure StacksTransaction where
  version : Option Nat
  chainId : Option (List Nat)
  auth : Option Authorization
  anchorMode : Option Nat
  payload : Option Payload
  postConditionMode : Nat
  postConditions : List PostCondition
deriving DecidableEq, Repr

/-- The `StacksTransaction` constructor: stores the given version, auth and
payload, defaults the chain id and post-condition mode, starts with an empty
post-condition list, and derives the anchor mode from the payload type
(Coinbase and PoisonMicroblock force on-chain only; any other payload gives
"any"; no payload leaves the anchor mode unset). -/
def mkStacksTransaction (version : Option Nat) (auth : Option Authorization)
    (payload : Option Payload) : StacksTransaction :=
  { version := version
    auth := auth
    payload := payload
    chainId := some DEFAULT_CHAIN_ID
    postConditionMode := PostConditionMode.deny
    postConditions := []
    anchorMode :=
      match payload with
      | none => none
      | some p =>
        if p.payloadType = PayloadType.coinbase then some AnchorMode.onChainOnly
        else if p.payloadType = PayloadType.poisonMicroblock then some AnchorMode.onChainOnly
        else some AnchorMode.any }

/-- `addPostCondition`: push onto the length-prefixed post-condition list. -/
def StacksTransaction.addPostCondition (tx : StacksTransaction)
    (postCondition : PostCondition) : StacksTransaction :=
  { tx with postConditions := tx.postConditions ++ [postCondition] }

/-- `LengthPrefixedList.serialize` for the post-condition list: 4-byte
big-endian element count followed by each serialized element. -/
def serializePostConditions (pcs : List PostCondition) : Except String (List Nat) :=
  Except.bind (serializeEach PostCondition.serialize pcs) fun body =>
    Except.ok (natToBeBytes 4 pcs.length ++ body)

/-- `StacksTransaction.serialize`: the five field-presence guards in source
order, then the appends — version, chain id, authorization, anchor mode,
post-condition mode, post-condition list, payload. -/
def StacksTransaction.serialize (tx : StacksTransaction) : Except String (List Nat) :=
  Except.bind (require tx.version "\"version\" is undefined") fun version =>
    Except.bind (require tx.chainId "\"chainId\" is undefined") fun chainId =>
      Except.bind (require tx.auth "\"auth\" is undefined") fun auth =>
        Except.bind (require tx.anchorMode "\"anchorMode\" is undefined") fun anchorMode =>
          Except.bind (require tx.payload "\"payload\" is undefined") fun payload =>
            Except.bind auth.serialize fun authBytes =>
              Except.bind (serializePostConditions tx.postConditions) fun pcBytes =>
                Except.bind payload.serialize fun payloadBytes =>
                  Except.ok (version :: (chainId ++ authBytes ++
                    anchorMode :: tx.postConditionMode :: pcBytes ++ payloadBytes))

/-- The version-decoding step of `StacksTransaction.deserialize`: one byte is
read and compared against the mainnet tag only; any other byte value yields
testnet. -/
def deserializeVersion (bs : List Nat) : Option (Nat × List Nat) :=
  match bs with
  | [] => none
  | b :: rest =>
    some ((if b = TransactionVersion.mainnet then TransactionVersion.mainnet
           else TransactionVersion.testnet), rest)

/-- `StacksTransaction.deserialize`: mirrors the serialization order —
version (lenient tag test), 4-byte chain id, authorization, anchor-mode byte,
post-condition-mode byte, length-prefixed post-condition list, payload. -/
def StacksTransaction.deserialize (bs : List Nat) :
    Option (StacksTransaction × List Nat) :=
  (deserializeVersion bs).bind fun v =>
    (readBytes 4 v.2).bind fun cid =>
      (Authorization.deserialize cid.2).bind fun auth =>
        match auth.2 with
        | [] => none
        | anchorMode :: rest1 =>
          match rest1 with
          | [] => none
          | pcMode :: rest2 =>
            (readBytes 4 rest2).bind fun cnt =>
              (deserializeCount PostCondition.deserialize (beBytesToNat cnt.1) cnt.2).bind
                fun pcs =>
                  (Payload.deserialize pcs.2).bind fun p =>
                    some ({ version := some v.1
                            chainId := some cid.1
                            auth := some auth.1
                            anchorMode := some anchorMode
                            postConditionMode := pcMode
                            postConditions := pcs.1
                            payload := some p.1 }, p.2)

/-- `txid`: the content hash (`txidFromData`, an external sha512/256-based
primitive passed in as a parameter) of the full serialization. -/
def StacksTransaction.txid (txidFromData : List Nat → List Nat)
    (tx : StacksTransaction) : Except String (List Nat) :=
  Except.bind tx.serialize fun serialized => Except.ok (txidFromData serialized)

/-- `signBegin`: clone the transaction, fail if auth is absent, replace the
clone's authorization by its initial-sighash (signature-stripped) variant, and
return that clone's txid. The original transaction is untouched (the model is
pure: `tx` itself is never rebound). -/
def StacksTransaction.signBegin (txidFromData : List Nat → List Nat)
    (tx : StacksTransaction) : Except String (List Nat) :=
  match tx.auth with
  | none => Except.error "\"auth\" is undefined"
  | some a =>
    StacksTransaction.txid txidFromData { tx with auth := some a.intoInitialSighashAuth }

/-- The result record of `SpendingCondition.nextSignature`. -/
structure SigResult where
  nextSig : List Nat
  nextSigHash : List Nat
deriving DecidableEq, Repr

/-- The signature of the external `SpendingCondition.nextSignature` primitive:
(current sighash, auth type, fee rate, nonce, private key) to a signature and
the next sighash. -/
def NextSignatureFn : Type :=
  List Nat → Nat → Nat → Nat → List Nat → SigResult

/-- `signAndAppend`: guard on fee rate and nonce, invoke `nextSignature`, store
the produced signature into the condition when it is single-sig, and return the
updated condition together with the next sighash. -/
def StacksTransaction.signAndAppend (nextSignature : NextSignatureFn)
    (condition : SpendingCondition) (curSigHash : List Nat) (authType : Nat)
    (privateKey : List Nat) : Except String (SpendingCondition × List Nat) :=
  match condition.feeRate with
  | none => Except.error "\"condition.feeRate\" is undefined"
  | some feeRate =>
    match condition.nonce with
    | none => Except.error "\"condition.nonce\" is undefined"
    | some nonce =>
      let r := nextSignature curSigHash authType feeRate nonce privateKey
      Except.ok
        ((if condition.singleSig then { condition with signature := r.nextSig }
          else condition), r.nextSigHash)

/-- `signNextOrigin`: guard on auth, its spending condition and its auth type,
then delegate to `signAndAppend` on the origin spending condition; the updated
condition is stored back into the transaction's authorization (the source
mutates it in place through the shared object reference). -/
def StacksTransaction.signNextOrigin (nextSignature : NextSignatureFn)
    (tx : StacksTransaction) (sigHash : List Nat) (privateKey : List Nat) :
    Except String (StacksTransaction × List Nat) :=
  match tx.auth with
  | none => Except.error "\"auth\" is undefined"
  | some auth =>
    match auth.spendingCondition with
    | none => Except.error "\"auth.spendingCondition\" is undefined"
    | some condition =>
      match auth.authType with
      | none => Except.error "\"auth.authType\" is undefined"
      | some authType =>
        Except.bind
          (StacksTransaction.signAndAppend nextSignature condition sigHash authType privateKey)
          fun r =>
            Except.ok
              ({ tx with auth := some { auth with spendingCondition := some r.1 } }, r.2)

def WFTransaction (tx : StacksTransaction) : Prop :=
  (tx.version = some TransactionVersion.mainnet ∨
    tx.version = some TransactionVersion.testnet) ∧
  (match tx.chainId with | some cid => cid.length = 4 | none => False) ∧
  (match tx.auth with | some a => WFAuthorization a | none => False) ∧
  tx.anchorMode ≠ none ∧
  tx.postConditions.length < 2 ^ 32 ∧
  (∀ pc ∈ tx.postConditions, WFPostCondition pc) ∧
  (match tx.payload with | some p => WFPayload p | none => False)

theorem version_tag_roundtrip {v : Nat}
    (hv : v = TransactionVersion.mainnet ∨ v = TransactionVersion.testnet) :
    (if v = TransactionVersion.mainnet then TransactionVersion.mainnet
     else TransactionVersion.testnet) = v := by
  rcases hv with hv | hv <;> subst hv <;> norm_num [TransactionVersion.mainnet,
    TransactionVersion.testnet]

theorem stacksTransaction_serde {tx : StacksTransaction} (h : WFTransaction tx) :
    SerDe StacksTransaction.serialize StacksTransaction.deserialize tx := by
  obtain ⟨vO, cidO, authO, amO, plO, pcm, pcs⟩ := tx
  obtain ⟨hv, hcid, hauth, ham, hlen, hpcs, hpl⟩ := h
  simp only at hv hcid hauth ham hlen hpcs hpl
  cases vO with
  | none => rcases hv with hv | hv <;> exact absurd hv (by simp)
  | some v =>
  cases cidO with
  | none => exact absurd hcid (by simp)
  | some cid =>
  cases authO with
  | none => exact absurd hauth (by simp)
  | some auth =>
  cases amO with
  | none => exact absurd rfl ham
  | some anchorMode =>
  cases plO with
  | none => exact absurd hpl (by simp)
  | some p =>
  simp only [Option.some.injEq] at hv
  simp only at hcid hauth hpl
  obtain ⟨ab, hserA, hdesA⟩ := authorization_serde hauth
  obtain ⟨pb, hserP, hdesP⟩ := payload_serde hpl
  obtain ⟨body, hbody, hdbody⟩ :=
    serializeEach_serde (fun pc hpc => postCondition_serde (hpcs pc hpc))
  have hlen256 : pcs.length < 256 ^ 4 := by rw [← pow_32_as_256]; exact hlen
  refine ⟨v :: (cid ++ ab ++ anchorMode :: pcm :: (natToBeBytes 4 pcs.length ++ body) ++ pb),
    ?_, fun rest => ?_⟩
  · simp [StacksTransaction.serialize, serializePostConditions, hserA, hserP, hbody]
  · simp only [StacksTransaction.deserialize, deserializeVersion, List.cons_append,
      List.append_assoc]
    rw [version_tag_roundtrip hv]
    simp only [Option.some_bind]
    rw [readBytes_exact hcid]
    simp only [Option.some_bind]
    rw [hdesA]
    simp only [Option.some_bind, List.cons_append]
    rw [readBytes_exact (natToBeBytes_length 4 pcs.length)]
    simp only [Option.some_bind]
    rw [beBytesToNat_natToBeBytes hlen256]
    rw [hdbody]
    simp only [Option.some_bind]
    rw [hdesP]
    rfl

/-! ### Concrete sample values used by the witnesses -/

def sampleAddress : Address := ⟨22, List.replicate 20 7⟩

def samplePrincipal : Principal := .standard sampleAddress

def sampleAssetInfo : AssetInfo := ⟨sampleAddress, ⟨[97]⟩, ⟨[98]⟩⟩

def samplePC : PostCondition :=
  STXPostCondition (some samplePrincipal) (some 3) (some 1000000)

def sampleCondition : SpendingCondition :=
  ⟨0, List.replicate 20 1, some 0, some 0, 0, List.replicate 65 0⟩

def sampleAuth : Authorization := StandardAuthorization (some sampleCondition)

def samplePayload : Payload := .tokenTransfer samplePrincipal 2500000 (List.replicate 34 0)

def sampleTx : StacksTransaction :=
  mkStacksTransaction (some TransactionVersion.testnet) (some sampleAuth) (some samplePayload)

theorem sampleTx_wf : WFTransaction sampleTx := by
  refine ⟨Or.inr rfl, by norm_num [sampleTx, mkStacksTransaction, DEFAULT_CHAIN_ID], ?_, ?_,
    by norm_num [sampleTx, mkStacksTransaction], ?_, ?_⟩
  · refine ⟨?_, Or.inl ⟨rfl, rfl⟩⟩
    norm_num [sampleTx, mkStacksTransaction, sampleAuth, StandardAuthorization,
      WFSpendingCondition, sampleCondition]
  · simp [sampleTx, mkStacksTransaction, samplePayload, Payload.payloadType,
      PayloadType.tokenTransfer, PayloadType.coinbase, PayloadType.poisonMicroblock]
  · intro pc hpc
    norm_num [sampleTx, mkStacksTransaction] at hpc
  · norm_num [sampleTx, mkStacksTransaction, samplePayload, WFPayload, WFPrincipal,
      samplePrincipal, WFAddress, sampleAddress]

theorem samplePC_wf : WFPostCondition samplePC := by
  refine ⟨?_, by simp [samplePC, STXPostCondition, mkPostCondition], ?_⟩
  · norm_num [samplePC, STXPostCondition, mkPostCondition, WFPrincipal, samplePrincipal,
      WFAddress, sampleAddress]
  · exact Or.inl ⟨rfl, rfl, rfl, by norm_num [samplePC, STXPostCondition, mkPostCondition]⟩

/-- Claim C1: for every well-formed PostCondition and every well-formed
StacksTransaction (all fields required by the variant present and within
bounds), serializing and then deserializing yields the same value field-wise,
and deserialization consumes exactly the bytes serialize produced (any appended
suffix is returned untouched as the remaining cursor). -/
theorem claim1_roundtrip :
    (∀ pc : PostCondition, WFPostCondition pc →
      SerDe PostCondition.serialize PostCondition.deserialize pc) ∧
    (∀ tx : StacksTransaction, WFTransaction tx →
      SerDe StacksTransaction.serialize StacksTransaction.deserialize tx) :=
  ⟨fun _ h => postCondition_serde h, fun _ h => stacksTransaction_serde h⟩

/-- Witness for C1 at a concrete STX post-condition and a concrete token
transfer transaction. -/
theorem claim1_roundtrip_witness :
    SerDe PostCondition.serialize PostCondition.deserialize samplePC ∧
    SerDe StacksTransaction.serialize StacksTransaction.deserialize sampleTx :=
  ⟨claim1_roundtrip.1 samplePC samplePC_wf, claim1_roundtrip.2 sampleTx sampleTx_wf⟩

theorem serialize_amount_shape {pc : PostCondition} {amount : Nat}
    (h : WFPostCondition pc)
    (htype : pc.postConditionType = some PostConditionType.stx ∨
      pc.postConditionType = some PostConditionType.fungible)
    (hamt : pc.amount = some amount) :
    ∃ pre, pc.serialize = Except.ok (pre ++ natToBeBytes 8 amount) := by
  obtain ⟨tO, pO, cO, aiO, anO, amtO⟩ := pc
  obtain ⟨hp, hc, hvar⟩ := h
  simp only at hp hc htype hamt
  subst hamt
  cases pO with
  | none => exact absurd hp (by simp)
  | some p =>
  simp only at hp
  cases cO with
  | none => exact absurd rfl hc
  | some code =>
  obtain ⟨pb, hserP, _⟩ := principal_serde hp
  rcases hvar with ⟨ht, hai, han, _⟩ | ⟨ht, hai, han, _⟩ | ⟨ht, _, _, hamt2⟩
  · simp only at ht hai han
    subst ht; subst hai; subst han
    refine ⟨PostConditionType.stx :: (pb ++ [code]), ?_⟩
    norm_num [PostCondition.serialize, hserP, PostConditionType.stx,
      PostConditionType.fungible, PostConditionType.nonFungible]
  · simp only at ht hai han
    subst ht; subst han
    cases aiO with
    | none => exact absurd hai (by simp)
    | some ai =>
    simp only at hai
    obtain ⟨aib, hserA, _⟩ := assetInfo_serde hai
    refine ⟨PostConditionType.fungible :: (pb ++ aib ++ [code]), ?_⟩
    norm_num [PostCondition.serialize, hserP, hserA, PostConditionType.stx,
      PostConditionType.fungible, PostConditionType.nonFungible]
  · simp only at ht hamt2
    subst ht
    rcases htype with htype | htype <;>
      simp [PostConditionType.stx, PostConditionType.fungible,
        PostConditionType.nonFungible] at htype

/-- Claim C2: a NonFungible post-condition's amount field is absent (not zero)
after construction and stays absent across a serialize/deserialize round trip;
an STX or Fungible post-condition's amount is present, serialized as the final
8-byte big-endian field, and round-trips numerically exactly. -/
theorem claim2_amount_presence :
    (∀ (principal : Option Principal) (conditionCode : Option Nat)
        (assetInfo : Option AssetInfo) (assetNameRaw : Option (List Nat)),
      (NonFungiblePostCondition principal conditionCode assetInfo assetNameRaw).amount
        = none) ∧
    (∀ pc : PostCondition, WFPostCondition pc →
      pc.postConditionType = some PostConditionType.nonFungible →
      pc.amount = none ∧ ∃ bs, pc.serialize = Except.ok bs ∧ ∀ rest, ∃ pc2,
        PostCondition.deserialize (bs ++ rest) = some (pc2, rest) ∧ pc2.amount = none) ∧
    (∀ (pc : PostCondition) (amount : Nat), WFPostCondition pc →
      (pc.postConditionType = some PostConditionType.stx ∨
        pc.postConditionType = some PostConditionType.fungible) →
      pc.amount = some amount →
      ∃ pre, pc.serialize = Except.ok (pre ++ natToBeBytes 8 amount) ∧ ∀ rest, ∃ pc2,
        PostCondition.deserialize ((pre ++ natToBeBytes 8 amount) ++ rest)
          = some (pc2, rest) ∧ pc2.amount = some amount) := by
  refine ⟨fun _ _ _ _ => rfl, fun pc h htype => ?_, fun pc amount h htype hamt => ?_⟩
  · have hnone : pc.amount = none := by
      obtain ⟨_, _, hvar⟩ := h
      rcases hvar with ⟨ht, _, _, _⟩ | ⟨ht, _, _, _⟩ | ⟨_, _, _, hamt⟩
      · rw [ht] at htype
        simp [PostConditionType.stx, PostConditionType.nonFungible] at htype
      · rw [ht] at htype
        simp [PostConditionType.fungible, PostConditionType.nonFungible] at htype
      · exact hamt
    obtain ⟨bs, hser, hdes⟩ := postCondition_serde h
    exact ⟨hnone, bs, hser, fun rest => ⟨pc, hdes rest, hnone⟩⟩
  · obtain ⟨bs, hser, hdes⟩ := postCondition_serde h
    obtain ⟨pre, hshape⟩ := serialize_amount_shape h htype hamt
    have hbs : bs = pre ++ natToBeBytes 8 amount := by
      rw [hser] at hshape
      exact Except.ok.inj hshape
    refine ⟨pre, hshape, fun rest => ⟨pc, ?_, hamt⟩⟩
    rw [← hbs]
    exact hdes rest

def sampleNFPC : PostCondition :=
  NonFungiblePostCondition (some samplePrincipal) (some 17) (some sampleAssetInfo) (some [99])

theorem sampleNFPC_wf : WFPostCondition sampleNFPC := by
  refine ⟨?_, by simp [sampleNFPC, NonFungiblePostCondition, mkPostCondition], ?_⟩
  · norm_num [sampleNFPC, NonFungiblePostCondition, mkPostCondition, WFPrincipal,
      samplePrincipal, WFAddress, sampleAddress]
  · refine Or.inr (Or.inr ⟨rfl, ?_, ?_, rfl⟩)
    · norm_num [sampleNFPC, NonFungiblePostCondition, mkPostCondition, WFAssetInfo,
        sampleAssetInfo, WFAddress, sampleAddress, WFLps]
    · norm_num [sampleNFPC, NonFungiblePostCondition, mkPostCondition, WFLps]

/-- Witness for C2 at a concrete non-fungible and a concrete STX
post-condition. -/
theorem claim2_amount_presence_witness :
    (NonFungiblePostCondition (some samplePrincipal) (some 17) (some sampleAssetInfo)
      (some [99])).amount = none ∧
    (sampleNFPC.amount = none ∧ ∃ bs, sampleNFPC.serialize = Except.ok bs ∧ ∀ rest, ∃ pc2,
      PostCondition.deserialize (bs ++ rest) = some (pc2, rest) ∧ pc2.amount = none) ∧
    (∃ pre, samplePC.serialize = Except.ok (pre ++ natToBeBytes 8 1000000) ∧ ∀ rest, ∃ pc2,
      PostCondition.deserialize ((pre ++ natToBeBytes 8 1000000) ++ rest)
        = some (pc2, rest) ∧ pc2.amount = some 1000000) :=
  ⟨claim2_amount_presence.1 (some samplePrincipal) (some 17) (some sampleAssetInfo) (some [99]),
   claim2_amount_presence.2.1 sampleNFPC sampleNFPC_wf rfl,
   claim2_amount_presence.2.2 samplePC 1000000 samplePC_wf (Or.inl rfl) rfl⟩

/-- Claim C3: with every field present, `serialize` emits exactly the order
version, chain-id, authorization, anchor-mode, post-condition-mode,
post-condition list, payload — nothing omitted, nothing interleaved. -/
theorem claim3_serialize_order :
    ∀ (tx : StacksTransaction) (v : Nat) (cid : List Nat) (a : Authorization)
      (am : Nat) (p : Payload) (ab pcb pb : List Nat),
      tx.version = some v → tx.chainId = some cid → tx.auth = some a →
      tx.anchorMode = some am → tx.payload = some p →
      a.serialize = Except.ok ab →
      serializePostConditions tx.postConditions = Except.ok pcb →
      p.serialize = Except.ok pb →
      tx.serialize = Except.ok (v :: cid ++ ab ++ am :: tx.postConditionMode :: pcb ++ pb) := by
  intro tx v cid a am p ab pcb pb hv hcid ha ham hp hab hpcb hpb
  simp [StacksTransaction.serialize, hv, hcid, ha, ham, hp, hab, hpcb, hpb]

def sampleConditionBytes : List Nat :=
  0 :: (List.replicate 20 1 ++ natToBeBytes 8 0 ++ natToBeBytes 8 0 ++ 0 :: List.replicate 65 0)

def sampleAuthBytes : List Nat := AuthType.standard :: sampleConditionBytes

def samplePrincipalBytes : List Nat := PrincipalType.standard :: sampleAddress.serialize

def samplePayloadBytes : List Nat :=
  PayloadType.tokenTransfer :: (samplePrincipalBytes ++ natToBeBytes 8 2500000 ++
    List.replicate 34 0)

/-- Witness for C3 at the concrete sample transaction. -/
theorem claim3_serialize_order_witness :
    sampleTx.serialize = Except.ok (TransactionVersion.testnet :: DEFAULT_CHAIN_ID ++
      sampleAuthBytes ++ AnchorMode.any :: PostConditionMode.deny ::
      (natToBeBytes 4 0 ++ []) ++ samplePayloadBytes) :=
  claim3_serialize_order sampleTx TransactionVersion.testnet DEFAULT_CHAIN_ID sampleAuth
    AnchorMode.any samplePayload sampleAuthBytes (natToBeBytes 4 0 ++ []) samplePayloadBytes
    rfl rfl rfl rfl rfl rfl rfl rfl

/-- Claim C4: a transaction with a required field absent fails `serialize`
fatally with an error naming the missing field (checked in source order:
version, chain-id, auth, anchor-mode, payload) and yields no bytes; the same
holds in `PostCondition.serialize` for each field its variant requires. -/
theorem claim4_missing_field_errors :
    (∀ tx : StacksTransaction, tx.version = none →
      tx.serialize = Except.error "\"version\" is undefined") ∧
    (∀ (tx : StacksTransaction) (v : Nat), tx.version = some v → tx.chainId = none →
      tx.serialize = Except.error "\"chainId\" is undefined") ∧
    (∀ (tx : StacksTransaction) (v : Nat) (cid : List Nat), tx.version = some v →
      tx.chainId = some cid → tx.auth = none →
      tx.serialize = Except.error "\"auth\" is undefined") ∧
    (∀ (tx : StacksTransaction) (v : Nat) (cid : List Nat) (a : Authorization),
      tx.version = some v → tx.chainId = some cid → tx.auth = some a →
      tx.anchorMode = none →
      tx.serialize = Except.error "\"anchorMode\" is undefined") ∧
    (∀ (tx : StacksTransaction) (v : Nat) (cid : List Nat) (a : Authorization) (am : Nat),
      tx.version = some v → tx.chainId = some cid → tx.auth = some a →
      tx.anchorMode = some am → tx.payload = none →
      tx.serialize = Except.error "\"payload\" is undefined") ∧
    (∀ pc : PostCondition, pc.postConditionType = none →
      pc.serialize = Except.error "\"postConditionType\" is undefined") ∧
    (∀ (pc : PostCondition) (t : Nat), pc.postConditionType = some t →
      pc.principal = none →
      pc.serialize = Except.error "\"principal\" is undefined") ∧
    (∀ (pc : PostCondition) (p : Principal) (pb : List Nat),
      pc.postConditionType = some PostConditionType.fungible → pc.principal = some p →
      p.serialize = Except.ok pb → pc.assetInfo = none →
      pc.serialize = Except.error "\"assetInfo\" is undefined") ∧
    (∀ (pc : PostCondition) (p : Principal) (pb : List Nat) (ai : AssetInfo) (aib : List Nat),
      pc.postConditionType = some PostConditionType.nonFungible → pc.principal = some p →
      p.serialize = Except.ok pb → pc.assetInfo = some ai → ai.serialize = Except.ok aib →
      pc.assetName = none →
      pc.serialize = Except.error "\"assetName\" is undefined") ∧
    (∀ (pc : PostCondition) (p : Principal) (pb : List Nat),
      pc.postConditionType = some PostConditionType.stx → pc.principal = some p →
      p.serialize = Except.ok pb → pc.conditionCode = none →
      pc.serialize = Except.error "\"conditionCode\" is undefined") ∧
    (∀ (pc : PostCondition) (p : Principal) (pb : List Nat) (code : Nat),
      pc.postConditionType = some PostConditionType.stx → pc.principal = some p →
      p.serialize = Except.ok pb → pc.conditionCode = some code → pc.amount = none →
      pc.serialize = Except.error "\"amount\" is undefined") := by
  refine ⟨?_, ?_, ?_, ?_, ?_, ?_, ?_, ?_, ?_, ?_, ?_⟩
  · intro tx h
    simp [StacksTransaction.serialize, h]
  · intro tx v h1 h2
    simp [StacksTransaction.serialize, h1, h2]
  · intro tx v cid h1 h2 h3
    simp [StacksTransaction.serialize, h1, h2, h3]
  · intro tx v cid a h1 h2 h3 h4
    simp [StacksTransaction.serialize, h1, h2, h3, h4]
  · intro tx v cid a am h1 h2 h3 h4 h5
    simp [StacksTransaction.serialize, h1, h2, h3, h4, h5]
  · intro pc h
    simp [PostCondition.serialize, h]
  · intro pc t h1 h2
    simp [PostCondition.serialize, h1, h2]
  · intro pc p pb h1 h2 h3 h4
    norm_num [PostCondition.serialize, h1, h2, h3, h4, PostConditionType.fungible,
      PostConditionType.nonFungible]
  · intro pc p pb ai aib h1 h2 h3 h4 h5 h6
    norm_num [PostCondition.serialize, h1, h2, h3, h4, h5, h6, PostConditionType.fungible,
      PostConditionType.nonFungible]
  · intro pc p pb h1 h2 h3 h4
    norm_num [PostCondition.serialize, h1, h2, h3, h4, PostConditionType.stx,
      PostConditionType.fungible, PostConditionType.nonFungible]
  · intro pc p pb code h1 h2 h3 h4 h5
    norm_num [PostCondition.serialize, h1, h2, h3, h4, h5, PostConditionType.stx,
      PostConditionType.fungible, PostConditionType.nonFungible]

/-- Witness for C4: an empty transaction reports the missing version, an
anchor-less transaction reports the missing anchor mode, an empty
post-condition reports the missing type, and an STX post-condition without an
amount reports the missing amount. -/
theorem claim4_missing_field_errors_witness :
    (mkStacksTransaction none none none).serialize =
      Except.error "\"version\" is undefined" ∧
    (mkStacksTransaction (some TransactionVersion.mainnet) (some sampleAuth) none).serialize =
      Except.error "\"anchorMode\" is undefined" ∧
    (mkPostCondition none none none none none none).serialize =
      Except.error "\"postConditionType\" is undefined" ∧
    (STXPostCondition (some samplePrincipal) (some 3) none).serialize =
      Except.error "\"amount\" is undefined" :=
  ⟨claim4_missing_field_errors.1 (mkStacksTransaction none none none) rfl,
   claim4_missing_field_errors.2.2.2.1
     (mkStacksTransaction (some TransactionVersion.mainnet) (some sampleAuth) none)
     TransactionVersion.mainnet DEFAULT_CHAIN_ID sampleAuth rfl rfl rfl rfl,
   claim4_missing_field_errors.2.2.2.2.2.1 (mkPostCondition none none none none none none) rfl,
   claim4_missing_field_errors.2.2.2.2.2.2.2.2.2.2
     (STXPostCondition (some samplePrincipal) (some 3) none) samplePrincipal
     samplePrincipalBytes 3 rfl rfl rfl rfl rfl⟩

/-- Claim C5: every missing signing input (auth, its spending condition, its
auth type, the condition's fee rate, its nonce) makes `signNextOrigin` /
`signAndAppend` fail with the corresponding error, uniformly in the
`nextSignature` primitive — so no cryptographic call can influence the result
— and the error result carries no transaction or condition, so no partial
signature is ever stored. -/
theorem claim5_signing_preconditions :
    (∀ (f : NextSignatureFn) (tx : StacksTransaction) (sigHash pk : List Nat),
      tx.auth = none →
      tx.signNextOrigin f sigHash pk = Except.error "\"auth\" is undefined") ∧
    (∀ (f : NextSignatureFn) (tx : StacksTransaction) (a : Authorization)
        (sigHash pk : List Nat),
      tx.auth = some a → a.spendingCondition = none →
      tx.signNextOrigin f sigHash pk =
        Except.error "\"auth.spendingCondition\" is undefined") ∧
    (∀ (f : NextSignatureFn) (tx : StacksTransaction) (a : Authorization)
        (sc : SpendingCondition) (sigHash pk : List Nat),
      tx.auth = some a → a.spendingCondition = some sc → a.authType = none →
      tx.signNextOrigin f sigHash pk = Except.error "\"auth.authType\" is undefined") ∧
    (∀ (f : NextSignatureFn) (condition : SpendingCondition)
        (sigHash : List Nat) (authType : Nat) (pk : List Nat),
      condition.feeRate = none →
      StacksTransaction.signAndAppend f condition sigHash authType pk =
        Except.error "\"condition.feeRate\" is undefined") ∧
    (∀ (f : NextSignatureFn) (condition : SpendingCondition) (feeRate : Nat)
        (sigHash : List Nat) (authType : Nat) (pk : List Nat),
      condition.feeRate = some feeRate → condition.nonce = none →
      StacksTransaction.signAndAppend f condition sigHash authType pk =
        Except.error "\"condition.nonce\" is undefined") := by
  refine ⟨?_, ?_, ?_, ?_, ?_⟩
  · intro f tx sigHash pk h
    simp [StacksTransaction.signNextOrigin, h]
  · intro f tx a sigHash pk h1 h2
    simp [StacksTransaction.signNextOrigin, h1, h2]
  · intro f tx a sc sigHash pk h1 h2 h3
    simp [StacksTransaction.signNextOrigin, h1, h2, h3]
  · intro f condition sigHash authType pk h
    simp [StacksTransaction.signAndAppend, h]
  · intro f condition feeRate sigHash authType pk h1 h2
    simp [StacksTransaction.signAndAppend, h1, h2]

/-- Witness for C5 at concrete incomplete inputs, with a concrete
`nextSignature` oracle. -/
theorem claim5_signing_preconditions_witness :
    (mkStacksTransaction none none none).signNextOrigin
        (fun _ _ _ _ _ => ⟨[1], [2]⟩) [9] [8] =
      Except.error "\"auth\" is undefined" ∧
    (mkStacksTransaction none (some ⟨some AuthType.standard, none, none⟩ : Option Authorization)
        none).signNextOrigin (fun _ _ _ _ _ => ⟨[1], [2]⟩) [9] [8] =
      Except.error "\"auth.spendingCondition\" is undefined" ∧
    (mkStacksTransaction none (some ⟨none, some sampleCondition, none⟩ : Option Authorization)
        none).signNextOrigin (fun _ _ _ _ _ => ⟨[1], [2]⟩) [9] [8] =
      Except.error "\"auth.authType\" is undefined" ∧
    StacksTransaction.signAndAppend (fun _ _ _ _ _ => ⟨[1], [2]⟩)
        ⟨0, List.replicate 20 1, some 0, none, 0, List.replicate 65 0⟩ [9] AuthType.standard [8] =
      Except.error "\"condition.feeRate\" is undefined" ∧
    StacksTransaction.signAndAppend (fun _ _ _ _ _ => ⟨[1], [2]⟩)
        ⟨0, List.replicate 20 1, none, some 0, 0, List.replicate 65 0⟩ [9] AuthType.standard [8] =
      Except.error "\"condition.nonce\" is undefined" :=
  ⟨claim5_signing_preconditions.1 (fun _ _ _ _ _ => ⟨[1], [2]⟩)
      (mkStacksTransaction none none none) [9] [8] rfl,
   claim5_signing_preconditions.2.1 (fun _ _ _ _ _ => ⟨[1], [2]⟩)
      (mkStacksTransaction none (some ⟨some AuthType.standard, none, none⟩) none)
      ⟨some AuthType.standard, none, none⟩ [9] [8] rfl rfl,
   claim5_signing_preconditions.2.2.1 (fun _ _ _ _ _ => ⟨[1], [2]⟩)
      (mkStacksTransaction none (some ⟨none, some sampleCondition, none⟩) none)
      ⟨none, some sampleCondition, none⟩ sampleCondition [9] [8] rfl rfl rfl,
   claim5_signing_preconditions.2.2.2.1 (fun _ _ _ _ _ => ⟨[1], [2]⟩)
      ⟨0, List.replicate 20 1, some 0, none, 0, List.replicate 65 0⟩ [9] AuthType.standard [8]
      rfl,
   claim5_signing_preconditions.2.2.2.2 (fun _ _ _ _ _ => ⟨[1], [2]⟩)
      ⟨0, List.replicate 20 1, none, some 0, 0, List.replicate 65 0⟩ 0 [9] AuthType.standard [8]
      rfl rfl⟩

/-- Claim C6: with auth present, `signBegin` returns the txid (the content
hash of the full serialization) of a copy of the transaction whose
authorization has been replaced by the initial-sighash (signature-stripped)
variant; that copy agrees with the original on every other field, and the
model is pure, so the original transaction itself is never modified. -/
theorem claim6_signBegin :
    ∀ (txidFromData : List Nat → List Nat) (tx : StacksTransaction) (a : Authorization),
      tx.auth = some a →
      tx.signBegin txidFromData =
        StacksTransaction.txid txidFromData
          { tx with auth := some a.intoInitialSighashAuth } ∧
      ({ tx with auth := some a.intoInitialSighashAuth }).version = tx.version ∧
      ({ tx with auth := some a.intoInitialSighashAuth }).chainId = tx.chainId ∧
      ({ tx with auth := some a.intoInitialSighashAuth }).anchorMode = tx.anchorMode ∧
      ({ tx with auth := some a.intoInitialSighashAuth }).payload = tx.payload ∧
      ({ tx with auth := some a.intoInitialSighashAuth }).postConditionMode
        = tx.postConditionMode ∧
      ({ tx with auth := some a.intoInitialSighashAuth }).postConditions
        = tx.postConditions := by
  intro txidFromData tx a h
  refine ⟨?_, rfl, rfl, rfl, rfl, rfl, rfl⟩
  simp [StacksTransaction.signBegin, h]

/-- Witness for C6 at the sample transaction with the identity hash. -/
theorem claim6_signBegin_witness :
    sampleTx.signBegin (fun bs => bs) =
      StacksTransaction.txid (fun bs => bs)
        { sampleTx with auth := some sampleAuth.intoInitialSighashAuth } ∧
    ({ sampleTx with auth := some sampleAuth.intoInitialSighashAuth }).version
      = sampleTx.version ∧
    ({ sampleTx with auth := some sampleAuth.intoInitialSighashAuth }).chainId
      = sampleTx.chainId ∧
    ({ sampleTx with auth := some sampleAuth.intoInitialSighashAuth }).anchorMode
      = sampleTx.anchorMode ∧
    ({ sampleTx with auth := some sampleAuth.intoInitialSighashAuth }).payload
      = sampleTx.payload ∧
    ({ sampleTx with auth := some sampleAuth.intoInitialSighashAuth }).postConditionMode
      = sampleTx.postConditionMode ∧
    ({ sampleTx with auth := some sampleAuth.intoInitialSighashAuth }).postConditions
      = sampleTx.postConditions :=
  claim6_signBegin (fun bs => bs) sampleTx sampleAuth rfl

/-- Claim C7: for a single-sig spending condition with fee rate and nonce
present, `signAndAppend` invokes `nextSignature` on exactly (current sighash,
auth type, fee rate, nonce, private key), stores the produced signature into
that condition's signature field, and returns the chained next sighash. -/
theorem claim7_signAndAppend_single_sig :
    ∀ (f : NextSignatureFn) (condition : SpendingCondition) (feeRate nonce : Nat)
      (sigHash : List Nat) (authType : Nat) (pk : List Nat),
      condition.feeRate = some feeRate → condition.nonce = some nonce →
      condition.singleSig = true →
      StacksTransaction.signAndAppend f condition sigHash authType pk =
        Except.ok
          ({ condition with signature := (f sigHash authType feeRate nonce pk).nextSig },
            (f sigHash authType feeRate nonce pk).nextSigHash) := by
  intro f condition feeRate nonce sigHash authType pk hf hn hs
  simp [StacksTransaction.signAndAppend, hf, hn, hs]

/-- Witness for C7 at the sample single-sig condition with a concrete
oracle. -/
theorem claim7_signAndAppend_single_sig_witness :
    StacksTransaction.signAndAppend (fun _ _ _ _ _ => ⟨List.replicate 65 9, [5, 6]⟩)
        sampleCondition [9] AuthType.standard [8] =
      Except.ok ({ sampleCondition with signature :=
        ((fun (_ : List Nat) (_ : Nat) (_ : Nat) (_ : Nat) (_ : List Nat) =>
          SigResult.mk (List.replicate 65 9) [5, 6]) [9] AuthType.standard 0 0 [8]).nextSig },
        ((fun (_ : List Nat) (_ : Nat) (_ : Nat) (_ : Nat) (_ : List Nat) =>
          SigResult.mk (List.replicate 65 9) [5, 6]) [9] AuthType.standard 0 0 [8]).nextSigHash) :=
  claim7_signAndAppend_single_sig (fun _ _ _ _ _ => ⟨List.replicate 65 9, [5, 6]⟩)
    sampleCondition 0 0 [9] AuthType.standard [8] rfl rfl rfl

/-- Claim C8: `StacksTransaction.deserialize` decodes the version by testing
the first byte against the mainnet tag only: the mainnet byte yields Mainnet
and every other byte yields Testnet, never a decode failure; consequently any
successful full deserialization carries the version so computed from its first
input byte. -/
theorem claim8_version_decoding :
    (∀ rest : List Nat, deserializeVersion (TransactionVersion.mainnet :: rest) =
      some (TransactionVersion.mainnet, rest)) ∧
    (∀ (b : Nat) (rest : List Nat), b ≠ TransactionVersion.mainnet →
      deserializeVersion (b :: rest) = some (TransactionVersion.testnet, rest)) ∧
    (∀ (bs : List Nat) (tx : StacksTransaction) (rest : List Nat),
      StacksTransaction.deserialize bs = some (tx, rest) →
      ∃ b bs2, bs = b :: bs2 ∧ tx.version =
        some (if b = TransactionVersion.mainnet then TransactionVersion.mainnet
              else TransactionVersion.testnet)) := by
  refine ⟨fun rest => by simp [deserializeVersion], fun b rest h => by
    simp [deserializeVersion, h], ?_⟩
  intro bs tx rest h
  cases bs with
  | nil => simp [StacksTransaction.deserialize, deserializeVersion] at h
  | cons b bs2 =>
    refine ⟨b, bs2, rfl, ?_⟩
    simp only [StacksTransaction.deserialize, deserializeVersion, Option.some_bind] at h
    rcases Option.bind_eq_some.mp h with ⟨cid, hcid, h⟩
    rcases Option.bind_eq_some.mp h with ⟨auth, hauth, h⟩
    cases hr : auth.2 with
    | nil => rw [hr] at h; exact absurd h (by simp)
    | cons anchorMode rest1 =>
      rw [hr] at h
      cases rest1 with
      | nil => exact absurd h (by simp)
      | cons pcMode rest2 =>
        simp only at h
        rcases Option.bind_eq_some.mp h with ⟨cnt, hcnt, h⟩
        rcases Option.bind_eq_some.mp h with ⟨pcs, hpcs, h⟩
        rcases Option.bind_eq_some.mp h with ⟨p, hpd, h⟩
        rcases Option.some.inj h with h2
        have h3 := congrArg (fun q : StacksTransaction × List Nat => q.1.version) h2
        simpa using h3.symm

/-- Witness for C8: the byte 0x42 is neither the mainnet tag nor the testnet
tag, yet it decodes as testnet rather than failing. -/
theorem claim8_version_decoding_witness :
    deserializeVersion (0x42 :: [1, 2, 3]) = some (TransactionVersion.testnet, [1, 2, 3]) :=
  claim8_version_decoding.2.1 0x42 [1, 2, 3] (by norm_num [TransactionVersion.mainnet])

/-- Claim C9: the constructor, given a payload, defaults the chain id, sets
post-condition mode Deny and an empty post-condition list, and derives the
anchor mode from the payload type — on-chain only for Coinbase and
PoisonMicroblock, "any" for every other payload type — without caller
input. -/
theorem claim9_constructor_defaults :
    ∀ (version : Option Nat) (auth : Option Authorization) (p : Payload),
      (mkStacksTransaction version auth (some p)).chainId = some DEFAULT_CHAIN_ID ∧
      (mkStacksTransaction version auth (some p)).postConditionMode
        = PostConditionMode.deny ∧
      (mkStacksTransaction version auth (some p)).postConditions = [] ∧
      (mkStacksTransaction version auth (some p)).anchorMode =
        some (if p.payloadType = PayloadType.coinbase ∨
                p.payloadType = PayloadType.poisonMicroblock
              then AnchorMode.onChainOnly else AnchorMode.any) := by
  intro version auth p
  refine ⟨rfl, rfl, rfl, ?_⟩
  by_cases h1 : p.payloadType = PayloadType.coinbase <;>
    by_cases h2 : p.payloadType = PayloadType.poisonMicroblock <;>
    simp [mkStacksTransaction, h1, h2]

/-- Claim C10: the constructor without a payload leaves the anchor mode
absent, so a later `serialize` on such a transaction — version, chain id and
auth present — fails with the anchor-mode missing-field error instead of
producing bytes. -/
theorem claim10_no_payload_no_anchor :
    ∀ (version : Nat) (auth : Authorization),
      (mkStacksTransaction (some version) (some auth) none).anchorMode = none ∧
      (mkStacksTransaction (some version) (some auth) none).version = some version ∧
      (mkStacksTransaction (some version) (some auth) none).chainId
        = some DEFAULT_CHAIN_ID ∧
      (mkStacksTransaction (some version) (some auth) none).auth = some auth ∧
      (mkStacksTransaction (some version) (some auth) none).serialize =
        Except.error "\"anchorMode\" is undefined" := by
  intro version auth
  exact ⟨rfl, rfl, rfl, rfl, by simp [mkStacksTransaction, StacksTransaction.serialize]⟩
